import Mathlib

/-!
Verification development for the queue-driven job pipeline consisting of
`EnqueueCompaniesFunction/main.py`, `ProcessCompanyFunction/main.py` and
`DecisionMakerFunction/main.py`.  The Python functions are embedded shallowly:
dictionaries become association lists over an explicit value type, fallible
code returns `Except`, and every external collaborator (AI service, Mongo
connectivity, SES/Discord, Step Functions, SQS) is an oracle recording the
outcome the environment would produce for each call.
-/

set_option maxRecDepth 8000

/-- Values stored in the JSON-like dictionaries the pipeline moves around.
The code never inspects the inside of `business` / `user_personas` payloads,
so those are opaque (`vobj`); Mongo object ids are `vid`; the `date_written`
stamp is `vdate`. -/
inductive JVal where
  | vnull : JVal
  | vnat : Nat → JVal
  | vstr : String → JVal
  | vstrs : List String → JVal
  | vdate : Nat → Nat → Nat → JVal
  | vid : Nat → JVal
  | vobj : Nat → JVal
deriving DecidableEq, Repr

/-- A Python dict / Mongo document: an association list of string keys. -/
abbrev JObj := List (String × JVal)

/- Field-name constants used by the pipeline. -/
def kBusinessName : String := "business_name"
def kPersonas : String := "personas"
def kEmail : String := "email"
def kId : String := "_id"
def kKeywords : String := "list_of_keywords"
def kAdText : String := "list_of_ad_text"
def kPaths : String := "list_of_paths_taken"
def kBusiness : String := "business"
def kUserPersonas : String := "user_personas"
def kDateWritten : String := "date_written"
def kMessage : String := "message"
def kError : String := "error"

/-- Dictionary lookup, `d[key]` / `key in d`. -/
def jlookup : JObj → String → Option JVal
  | [], _ => none
  | p :: rest, key => if p.1 = key then some p.2 else jlookup rest key

/-- Python `d[key]`: raises `KeyError` when the key is absent. -/
def req (d : JObj) (key : String) : Except String JVal :=
  match jlookup d key with
  | some v => Except.ok v
  | none => Except.error ("KeyError: " ++ key)

/-- One `$set` entry of a Mongo update: overwrite the field if present,
append it otherwise. -/
def setField (d : JObj) (k : String) (v : JVal) : JObj :=
  if (jlookup d k).isSome then
    d.map (fun p => if p.1 = k then (k, v) else p)
  else
    d ++ [(k, v)]

/-- Apply every entry of a `$set` document. -/
def setFields (d : JObj) (sets : JObj) : JObj :=
  sets.foldl (fun acc p => setField acc p.1 p.2) d

/-- The current date, as captured by `datetime.now()`. -/
structure DateW where
  year : Nat
  month : Nat
  day : Nat
deriving DecidableEq, Repr

-- Decidable equality for `Except` results, used to evaluate concrete runs.
deriving instance DecidableEq for Except

/-! ### `json.dumps` with default separators

Python's `json.dumps` on a dict produces `{"k": v, "k2": v2}` — item
separator `", "`, key separator `": "`, keys in insertion order.  We render
the opaque embedding values in a fixed sensible way (a serialized ObjectId
becomes its decimal string, matching `serialize_objectid` turning the id
into a string). -/

def quoteStr (s : String) : String := "\"" ++ s ++ "\""

def commaSep : String := ", "

def jvalDumps : JVal → String
  | JVal.vnull => "null"
  | JVal.vnat n => toString n
  | JVal.vstr s => quoteStr s
  | JVal.vstrs xs => "[" ++ commaSep.intercalate (xs.map quoteStr) ++ "]"
  | JVal.vdate y m d =>
      "\x7b\"year\": " ++ toString y ++ ", \"month\": " ++ toString m ++
        ", \"day\": " ++ toString d ++ "\x7d"
  | JVal.vid n => quoteStr (toString n)
  | JVal.vobj n => "\x7b\"opaque\": " ++ toString n ++ "\x7d"

def dumps (o : JObj) : String :=
  "\x7b" ++ commaSep.intercalate (o.map (fun p => quoteStr p.1 ++ ": " ++ jvalDumps p.2)) ++ "\x7d"

/-! ### `json.loads` for the flat queue messages

The inbound queue messages are flat JSON objects whose values are strings
(or `null`); this parser models `json.loads` on that subset, accepting
arbitrary inter-token whitespace, which is what makes the dump-of-load
round trip observably different from the original bytes. -/

def isWsChar (c : Char) : Bool := c = ' ' || c = '\n' || c = '\t' || c = '\r'

def skipWs : List Char → List Char
  | [] => []
  | c :: rest => if isWsChar c then skipWs rest else c :: rest

/-- Consume the characters of a string literal up to the closing quote. -/
def strChars : List Char → Option (List Char × List Char)
  | [] => none
  | c :: rest =>
    if c = '"' then some ([], rest)
    else
      match strChars rest with
      | some (s, r) => some (c :: s, r)
      | none => none

/-- Parse a scalar JSON value: a string literal or `null`. -/
def parseScalar : List Char → Option (JVal × List Char)
  | [] => none
  | c :: rest =>
    if c = '"' then
      match strChars rest with
      | some (s, r) => some (JVal.vstr (String.mk s), r)
      | none => none
    else
      match c :: rest with
      | 'n' :: 'u' :: 'l' :: 'l' :: r => some (JVal.vnull, r)
      | _ => none

/-- Parse the members of an object after the opening brace (nonempty case),
fuelled by the input length. -/
def parseMembers : Nat → List Char → Option (JObj × List Char)
  | 0, _ => none
  | fuel + 1, l =>
    match skipWs l with
    | [] => none
    | c :: rest =>
      if c = '"' then
        match strChars rest with
        | some (key, r1) =>
          match skipWs r1 with
          | ':' :: r2 =>
            (match parseScalar (skipWs r2) with
             | some (v, r3) =>
               match skipWs r3 with
               | ',' :: r4 =>
                 (match parseMembers fuel r4 with
                  | some (obj, r5) => some ((String.mk key, v) :: obj, r5)
                  | none => none)
               | '\x7d' :: r4 => some ([(String.mk key, v)], r4)
               | _ => none
             | none => none)
          | _ => none
        | none => none
      else none

/-- `json.loads` on a flat object message; `none` models `JSONDecodeError`. -/
def loadsFlat (s : String) : Option JObj :=
  match skipWs s.toList with
  | '\x7b' :: r =>
    (match skipWs r with
     | '\x7d' :: r2 => if (skipWs r2).isEmpty then some [] else none
     | _ =>
       match parseMembers (s.toList.length + 1) r with
       | some (obj, rest) => if (skipWs rest).isEmpty then some obj else none
       | none => none)
  | _ => none

/-- Stringify a value the way the Python code would use it where a `str` is
expected (`business_name`, `email` are strings in every produced message). -/
def asStr : JVal → String
  | JVal.vstr s => s
  | v => jvalDumps v

/-! ### `send_discord_message` chunking (DecisionMakerFunction) -/

def MAX_LENGTH : Nat := 1900

/-- `[content[i:i+m] for i in range(0, len(content), m)]` — slices of size
`m` starting at the multiples of `m`; `range(0, L, m)` has `⌈L/m⌉` elements
for `m > 0`. -/
def pyChunks (m : Nat) (content : List Char) : List (List Char) :=
  (List.range ((content.length + m - 1) / m)).map
    (fun k => (content.drop (k * m)).take m)

/-- The `(Part i/N) ` label prepended to each chunk. -/
def partLabel (i n : Nat) : List Char :=
  ("(Part " ++ toString i ++ "/" ++ toString n ++ ") ").toList

/-- The list of message contents POSTed to the webhook by
`send_discord_message` (content modelled as its character sequence). -/
def send_discord_message (content : List Char) : List (List Char) :=
  if content.length ≤ MAX_LENGTH then [content]
  else
    (pyChunks MAX_LENGTH content).enum.map
      (fun p => partLabel (p.1 + 1) (pyChunks MAX_LENGTH content).length ++ p.2)

/-! ### The retry controller

Both worker functions contain the identical loop
`for attempt in range(max_retries + 1)` with `max_retries = 1`.  The agent
call is an oracle mapping the attempt number to its outcome.  The result of
`retryGo` is `(final outcome, number of attempts made, attempt numbers
logged as failed-and-retried)`. -/

def retryGo (oracle : Nat → Except String JObj) :
    Nat → Nat → Except String JObj × Nat × List Nat
  | 0, attempt => (Except.error "loop exhausted", attempt, [])
  | 1, attempt =>
    (match oracle attempt with
     | Except.ok a => (Except.ok a, attempt + 1, [])
     | Except.error e => (Except.error e, attempt + 1, []))
  | remaining + 2, attempt =>
    match oracle attempt with
    | Except.ok a => (Except.ok a, attempt + 1, [])
    | Except.error e =>
      let r := retryGo oracle (remaining + 1) (attempt + 1)
      (r.1, r.2.1, (attempt + 1) :: r.2.2)

/-- `max_retries = 1`: two total attempts, starting at attempt `0`. -/
def callWithRetry (oracle : Nat → Except String JObj) :
    Except String JObj × Nat × List Nat :=
  retryGo oracle 2 0

/-! ### The document store

One logical database; a collection per business key.  Mongo assigns `_id`s
in insertion order, so the embedding threads a fresh-id counter and every
inserted document gets `("_id", vid n)` with increasing `n`. -/

/-- The database: collection name to its documents in insertion order. -/
abbrev DB := List (String × List JObj)

def getColl : DB → String → List JObj
  | [], _ => []
  | (n, ds) :: rest, name => if n = name then ds else getColl rest name

def setColl : DB → String → List JObj → DB
  | [], name, ds => [(name, ds)]
  | (n, ds0) :: rest, name, ds =>
    if n = name then (n, ds) :: rest else (n, ds0) :: setColl rest name ds

/-- Total number of stored documents across all collections. -/
def dbSize : DB → Nat
  | [] => 0
  | (_, ds) :: rest => ds.length + dbSize rest

/-- `collection.find_one(sort=[('_id', -1)])`: the document with the
greatest `_id`. -/
def idNat (d : JObj) : Nat :=
  match jlookup d kId with
  | some (JVal.vid n) => n
  | _ => 0

def mostRecent : List JObj → Option JObj
  | [] => none
  | d :: ds =>
    match mostRecent ds with
    | none => some d
    | some b => if idNat d ≥ idNat b then some d else some b

/-- `collection.update_one({'_id': idv}, {'$set': sets})`: update the first
document whose `_id` equals `idv`; also return `modified_count`. -/
def updateOne (idv : JVal) (sets : JObj) : List JObj → List JObj × Nat
  | [] => ([], 0)
  | doc :: rest =>
    if jlookup doc kId = some idv then (setFields doc sets :: rest, 1)
    else (doc :: (updateOne idv sets rest).1, (updateOne idv sets rest).2)

/-! ### ProcessCompanyFunction (`src/ProcessCompanyFunction/main.py`) -/

/-- Outcomes the environment produces for one Job's external calls:
the AI-agent oracle by attempt number, whether the Mongo insert raises
(`AutoReconnect`/`OperationFailure`), whether the SES notify raises, whether
`start_execution` raises, and whether the DLQ `send_message` raises. -/
structure PCEnv where
  agent : Nat → Except String JObj
  mongoFails : Bool
  notifyFails : Bool
  sfnFails : Bool
  dlqFails : Bool

/-- Externally observable per-Job effects other than the document store. -/
structure Effects where
  dlq : List String
  notified : List (String × String × String)
  sfnStarted : List String
deriving DecidableEq, Repr

def noEffects : Effects := ⟨[], [], []⟩

def effAppend (a b : Effects) : Effects :=
  ⟨a.dlq ++ b.dlq, a.notified ++ b.notified, a.sfnStarted ++ b.sfnStarted⟩

/-- Result of handling one queue record: the store, the fresh-id counter,
the effects, and — when an exception escaped the per-record code — the
error that aborts the whole batch. -/
structure RecordOutcome where
  db : DB
  nextId : Nat
  eff : Effects
  fatal : Option String
deriving Repr

/-- `write_to_mongodb` of ProcessCompanyFunction builds `structured_data`
by direct indexing — all five fields are required — then stamps
`date_written`.  The Mongo insert itself is unconditional. -/
def pc_structured_data (data : JObj) (today : DateW) : Except String JObj := do
  let kw ← req data kKeywords
  let ad ← req data kAdText
  let pa ← req data kPaths
  let bu ← req data kBusiness
  let up ← req data kUserPersonas
  Except.ok [(kKeywords, kw), (kAdText, ad), (kPaths, pa), (kBusiness, bu),
    (kUserPersonas, up), (kDateWritten, JVal.vdate today.year today.month today.day)]

def pcSubject : String := "AdAlchemyAI: Initial Research Completed"

def pcBody (bn : String) : String :=
  "The initial research carried out by the Initial Market Researcher AI Agent for "
    ++ bn ++ " is complete. Please review the research using the /paths and /business slash commands in your Discord bot."

/-- The `except` branch of the per-record `try`: send the re-serialized
record to the DLQ; a failing DLQ send is logged and dropped. -/
def dlqRoute (dlqFails : Bool) (cd : JObj) : List String :=
  if dlqFails then [] else [dumps cd]

/-- One record of `process_company` (ProcessCompanyFunction).  `json.loads`
and the three field extractions happen before the `try`, so their failures
escape as `fatal`.  Inside the `try`: retry-wrapped agent call, the
unconditional insert, the SES notify (whose failure re-raises), and the
Step Functions start; any failure routes the record to the DLQ. -/
def pc_process_record (env : PCEnv) (today : DateW) (db : DB) (nid : Nat)
    (raw : String) : RecordOutcome :=
  match loadsFlat raw with
  | none => ⟨db, nid, noEffects, some "JSONDecodeError"⟩
  | some cd =>
    match jlookup cd kBusinessName with
    | none => ⟨db, nid, noEffects, some ("KeyError: " ++ kBusinessName)⟩
    | some bnv =>
      match jlookup cd kPersonas with
      | none => ⟨db, nid, noEffects, some ("KeyError: " ++ kPersonas)⟩
      | some _ =>
        match jlookup cd kEmail with
        | none => ⟨db, nid, noEffects, some ("KeyError: " ++ kEmail)⟩
        | some emv =>
          let bn := asStr bnv
          match (callWithRetry env.agent).1 with
          | Except.error _ => ⟨db, nid, ⟨dlqRoute env.dlqFails cd, [], []⟩, none⟩
          | Except.ok output =>
            match pc_structured_data output today with
            | Except.error _ => ⟨db, nid, ⟨dlqRoute env.dlqFails cd, [], []⟩, none⟩
            | Except.ok doc =>
              if env.mongoFails then
                ⟨db, nid, ⟨dlqRoute env.dlqFails cd, [], []⟩, none⟩
              else
                let db1 := setColl db bn (getColl db bn ++ [(kId, JVal.vid nid) :: doc])
                if env.notifyFails then
                  ⟨db1, nid + 1, ⟨dlqRoute env.dlqFails cd, [], []⟩, none⟩
                else
                  let sent := [(asStr emv, pcSubject, pcBody bn)]
                  if env.sfnFails then
                    ⟨db1, nid + 1, ⟨dlqRoute env.dlqFails cd, sent, []⟩, none⟩
                  else
                    ⟨db1, nid + 1,
                      ⟨[], sent,
                        [dumps [(kBusinessName, JVal.vstr (asStr bnv)),
                                (kEmail, JVal.vstr (asStr emv))]]⟩, none⟩

/-- Configuration read by `os.environ.get` — never validated by the worker
functions, only threaded into the external calls. -/
structure PCConfig where
  MONGO_URI : Option String
  WEBSITE_URL : Option String
  DLQ_URL : Option String
  MONGO_COLLECTION_NAME : Option String
  STEP_FUNCTION_ARN : Option String

/-- The fixed batch-level acknowledgment. -/
structure LambdaResponse where
  statusCode : Nat
  body : String
deriving DecidableEq, Repr

def success200 : LambdaResponse :=
  ⟨200, dumps [(kMessage, JVal.vstr "All companies processed successfully")]⟩

/-- Result of one batch invocation: final store, counter, accumulated
effects, and either the returned response or the exception that escaped. -/
structure BatchOutcome where
  db : DB
  nextId : Nat
  eff : Effects
  outcome : Except String LambdaResponse
deriving Repr

/-- `process_company` of ProcessCompanyFunction over a batch: each record is
paired with the environment oracle describing its external-call outcomes.
The configuration is read but never checked. -/
def pc_process_company (cfg : PCConfig) (today : DateW) (db : DB) (nid : Nat) :
    List (PCEnv × String) → BatchOutcome
  | [] => ⟨db, nid, noEffects, Except.ok success200⟩
  | j :: rest =>
    let o := pc_process_record j.1 today db nid j.2
    match o.fatal with
    | some e => ⟨o.db, o.nextId, o.eff, Except.error e⟩
    | none =>
      let b := pc_process_company cfg today o.db o.nextId rest
      ⟨b.db, b.nextId, effAppend o.eff b.eff, b.outcome⟩

/-! ### DecisionMakerFunction (`src/DecisionMakerFunction/main.py`) -/

/-- Outcomes the environment produces for one DecisionMaker Job: the agent
oracle, the `mappings.companies` webhook lookup for the business, whether
the Discord POST raises a `RequestException`, and the Step Functions / DLQ
call outcomes. -/
structure DMEnv where
  agent : Nat → Except String JObj
  webhook : Option String
  discordFail : Option String
  sfnFails : Bool
  dlqFails : Bool

/-- `existing_doc and all(field in existing_doc for field in
['user_personas', 'business', 'list_of_paths_taken'])` — a nonempty prior
document carrying all three fields. -/
def dmComplete (d : JObj) : Bool :=
  !d.isEmpty && (jlookup d kUserPersonas).isSome && (jlookup d kBusiness).isSome
    && (jlookup d kPaths).isSome

/-- The `existing_data` dict built from a complete prior document (`None`
otherwise).  Stored documents always carry `_id`; the `getD` defaults are
unreachable for store-created documents. -/
def mkExistingData (bn : String) (d : JObj) : Option JObj :=
  if dmComplete d then
    some [(kId, (jlookup d kId).getD JVal.vnull),
          (kBusinessName, JVal.vstr bn),
          (kUserPersonas, (jlookup d kUserPersonas).getD JVal.vnull),
          (kBusiness, (jlookup d kBusiness).getD JVal.vnull),
          (kPaths, (jlookup d kPaths).getD JVal.vnull)]
  else none

/-- `if existing_data and '_id' in existing_data:` — Python truthiness plus
membership. -/
def dmUpdateMode (existing_data : Option JObj) : Bool :=
  match existing_data with
  | none => false
  | some ed => !ed.isEmpty && (jlookup ed kId).isSome

/-- The message `write_to_mongodb` (DecisionMakerFunction) returns after the
write, reflecting the best-effort Discord notification: its
`RequestException` is caught and only degrades the message. -/
def dmMessage (webhook : Option String) (discordFail : Option String) : String :=
  match webhook with
  | none => "Success: Data written to MongoDB, but no webhook_url found for the business"
  | some _ =>
    match discordFail with
    | none => "Success: Data written to MongoDB and Discord message sent"
    | some e => "Success: Data written to MongoDB, but failed to send Discord message: " ++ e

/-- `write_to_mongodb` of DecisionMakerFunction on the business collection:
update-mode overwrites exactly `list_of_keywords`, `list_of_ad_text` and
`date_written` on the document matching `existing_data['_id']`; insert-mode
builds a new document whose optional fields default to `None`.  Returns the
new collection, the fresh-id counter and the result message. -/
def dm_write_to_mongodb (data : JObj) (existing_data : Option JObj)
    (docs : List JObj) (nid : Nat) (today : DateW)
    (webhook : Option String) (discordFail : Option String) :
    Except String (List JObj × Nat × String) := do
  let dw := JVal.vdate today.year today.month today.day
  if dmUpdateMode existing_data then
    let ed := existing_data.getD []
    let kw ← req data kKeywords
    let ad ← req data kAdText
    let sets := [(kKeywords, kw), (kAdText, ad), (kDateWritten, dw)]
    let idv := (jlookup ed kId).getD JVal.vnull
    Except.ok ((updateOne idv sets docs).1, nid, dmMessage webhook discordFail)
  else
    let kw ← req data kKeywords
    let ad ← req data kAdText
    let newDoc := [(kKeywords, kw), (kAdText, ad),
      (kPaths, (jlookup data kPaths).getD JVal.vnull),
      (kBusiness, (jlookup data kBusiness).getD JVal.vnull),
      (kUserPersonas, (jlookup data kUserPersonas).getD JVal.vnull),
      (kDateWritten, dw)]
    Except.ok (docs ++ [(kId, JVal.vid nid) :: newDoc], nid + 1,
      dmMessage webhook discordFail)

/-- The reconciliation a DecisionMaker Job performs for one business: read
the most recent prior document, build `existing_data` when it is complete,
and run `write_to_mongodb` with it. -/
def dm_reconcile (bn : String) (data : JObj) (docs : List JObj) (nid : Nat)
    (today : DateW) (webhook : Option String) (discordFail : Option String) :
    Except String (List JObj × Nat × String) :=
  let existing_data :=
    match mostRecent docs with
    | some d => mkExistingData bn d
    | none => none
  dm_write_to_mongodb data existing_data docs nid today webhook discordFail

/-- One record of `process_company` (DecisionMakerFunction).  Parsing and
the `business_name` extraction are outside the `try`; inside it: prior-state
read, retry-wrapped agent call, `write_to_mongodb` (which already contains
the best-effort Discord notify) and the Step Functions start; failures
route the re-serialized record to the DLQ. -/
def dm_process_record (env : DMEnv) (today : DateW) (db : DB) (nid : Nat)
    (raw : String) : RecordOutcome :=
  match loadsFlat raw with
  | none => ⟨db, nid, noEffects, some "JSONDecodeError"⟩
  | some cd =>
    match jlookup cd kBusinessName with
    | none => ⟨db, nid, noEffects, some ("KeyError: " ++ kBusinessName)⟩
    | some bnv =>
      let bn := asStr bnv
      match (callWithRetry env.agent).1 with
      | Except.error _ => ⟨db, nid, ⟨dlqRoute env.dlqFails cd, [], []⟩, none⟩
      | Except.ok output =>
        match dm_reconcile bn output (getColl db bn) nid today env.webhook
            env.discordFail with
        | Except.error _ => ⟨db, nid, ⟨dlqRoute env.dlqFails cd, [], []⟩, none⟩
        | Except.ok (docs', nid', _msg) =>
          let db' := setColl db bn docs'
          if env.sfnFails then
            ⟨db', nid', ⟨dlqRoute env.dlqFails cd, [], []⟩, none⟩
          else
            ⟨db', nid', ⟨[], [], [dumps [(kBusinessName, JVal.vstr bn)]]⟩, none⟩

/-- `process_company` of DecisionMakerFunction over a batch. -/
def dm_process_company (today : DateW) (db : DB) (nid : Nat) :
    List (DMEnv × String) → BatchOutcome
  | [] => ⟨db, nid, noEffects, Except.ok success200⟩
  | j :: rest =>
    let o := dm_process_record j.1 today db nid j.2
    match o.fatal with
    | some e => ⟨o.db, o.nextId, o.eff, Except.error e⟩
    | none =>
      let b := dm_process_company today o.db o.nextId rest
      ⟨b.db, b.nextId, effAppend o.eff b.eff, b.outcome⟩

/-! ### EnqueueCompaniesFunction (`src/EnqueueCompaniesFunction/main.py`) -/

structure EnqConfig where
  MONGO_URI : Option String
  MONGO_DB_NAME : Option String
  MONGO_COLLECTION_NAME : Option String
  SQS_QUEUE_URL : Option String

/-- Python falsiness of an environment value: unset or the empty string. -/
def falsy : Option String → Bool
  | none => true
  | some s => s.isEmpty

/-- `[var for var, value in env_vars.items() if not value]`, in the dict's
insertion order. -/
def enqMissing (c : EnqConfig) : List String :=
  (if falsy c.MONGO_URI then ["MONGO_URI"] else [])
    ++ (if falsy c.MONGO_DB_NAME then ["MONGO_DB_NAME"] else [])
    ++ (if falsy c.MONGO_COLLECTION_NAME then ["MONGO_COLLECTION_NAME"] else [])
    ++ (if falsy c.SQS_QUEUE_URL then ["SQS_QUEUE_URL"] else [])

/-- The message body enqueued for one company document. -/
def enqMessage (c : JObj) : String :=
  dumps [(kBusinessName, (jlookup c kBusinessName).getD (JVal.vstr "")),
         (kPersonas, JVal.vstr (jvalDumps ((jlookup c kPersonas).getD (JVal.vstrs [])))),
         (kEmail, (jlookup c kEmail).getD (JVal.vstr ""))]

/-- `lambda_handler` of EnqueueCompaniesFunction: the missing-variable check
runs before any Mongo access; an empty collection raises `ValueError`,
caught by the outer handler.  Returns the response and the queue messages
sent. -/
def enqueue_lambda_handler (c : EnqConfig) (companies : List JObj) :
    LambdaResponse × List String :=
  let missing := enqMissing c
  if missing.isEmpty then
    if companies.length = 0 then
      (⟨500, dumps [(kError, JVal.vstr "No companies found in MongoDB")]⟩, [])
    else
      (⟨200, dumps [(kMessage, JVal.vstr "All companies enqueued successfully")]⟩,
        companies.map enqMessage)
  else
    (⟨500, dumps [(kError, JVal.vstr ("Missing required environment variables: "
        ++ commaSep.intercalate missing))]⟩, [])

/-! ### Concrete data for counterexamples and witnesses -/

/-- A compact queue message body (no whitespace after separators). -/
def rawMsg1 : String :=
  "\x7b\"business_name\":\"acme\",\"personas\":\"[]\",\"email\":\"a@b.c\"\x7d"

/-- What `json.loads` yields for `rawMsg1`. -/
def cdMsg1 : JObj :=
  [(kBusinessName, JVal.vstr "acme"), (kPersonas, JVal.vstr "[]"),
   (kEmail, JVal.vstr "a@b.c")]

/-- A complete agent result carrying all five fields. -/
def dataFull1 : JObj :=
  [(kKeywords, JVal.vstrs ["kw"]), (kAdText, JVal.vstrs ["ad"]),
   (kPaths, JVal.vstrs ["p"]), (kBusiness, JVal.vobj 1),
   (kUserPersonas, JVal.vobj 2)]

/-- An agent result missing `business` and `user_personas` and
`list_of_paths_taken` (only the two required fields are present). -/
def dataOnlyRequired : JObj :=
  [(kKeywords, JVal.vstrs ["kw"]), (kAdText, JVal.vstrs ["ad"])]

def envAllOk : PCEnv := ⟨fun _ => Except.ok dataFull1, false, false, false, false⟩

def envAgentDown : PCEnv := ⟨fun _ => Except.error "agent down", false, false, false, false⟩

def envNotifyDown : PCEnv := ⟨fun _ => Except.ok dataFull1, false, true, false, false⟩

def envSfnDown : PCEnv := ⟨fun _ => Except.ok dataFull1, false, false, true, false⟩

def envOptionalMissing : PCEnv :=
  ⟨fun _ => Except.ok dataOnlyRequired, false, false, false, false⟩

/-- Concrete complete prior document for the C1 witness. -/
def dmDoc1 : JObj :=
  [(kId, JVal.vid 0), (kUserPersonas, JVal.vobj 1), (kBusiness, JVal.vobj 2),
   (kPaths, JVal.vstrs ["path1"]), (kKeywords, JVal.vstrs ["old"]),
   ("extra_field", JVal.vstr "keep"), (kAdText, JVal.vstrs ["oldad"])]

/-- Concrete agent result for the C1 witness. -/
def dmData1 : JObj :=
  [(kKeywords, JVal.vstrs ["kw1", "kw2"]), (kAdText, JVal.vstrs ["ad1"]),
   (kPaths, JVal.vstrs ["p"]), (kBusiness, JVal.vobj 3), (kUserPersonas, JVal.vobj 4)]

def oracleRecover : Nat → Except String JObj :=
  fun n => if n = 0 then Except.error "transient" else Except.ok []

def oracleDown : Nat → Except String JObj :=
  fun n => if n = 0 then Except.error "fail1" else Except.error "fail2"

/-- A queue message from which all three required fields can be extracted
without a `KeyError`. -/
def wfRecord (r : String) : Bool :=
  match loadsFlat r with
  | none => false
  | some cd =>
    (jlookup cd kBusinessName).isSome && (jlookup cd kPersonas).isSome
      && (jlookup cd kEmail).isSome

/-- A ProcessCompany Job whose external calls all succeed. -/
def jobOk (today : DateW) (j : PCEnv × String) : Prop :=
  wfRecord j.2 = true ∧
  (∃ agdata doc, (callWithRetry j.1.agent).1 = Except.ok agdata ∧
    pc_structured_data agdata today = Except.ok doc) ∧
  j.1.mongoFails = false ∧ j.1.notifyFails = false ∧ j.1.sfnFails = false

/-- A message body missing `business_name`. -/
def rawNoBn : String := "\x7b\"personas\":\"[]\",\"email\":\"a@b.c\"\x7d"

def cfgNone : PCConfig := ⟨none, none, none, none, none⟩

def cfgSome : PCConfig :=
  ⟨some "mongo", some "url", some "dlq", some "coll", some "arn"⟩

def enqCfgMissing : EnqConfig := ⟨none, some "db", none, some ""⟩

/-! ### Helper lemmas: dictionaries and updates -/

theorem jlookup_map_replace (k k' : String) (v : JVal) (hne : k' ≠ k) :
    ∀ d : JObj,
      jlookup (d.map (fun p => if p.1 = k then (k, v) else p)) k' = jlookup d k'
  | [] => rfl
  | p :: rest => by
    by_cases hpk : p.1 = k
    · simp only [List.map_cons, if_pos hpk]
      rw [jlookup, jlookup]
      have h1 : ¬ ((k, v).1 = k') := by simpa using fun h => hne h.symm
      rw [if_neg h1, if_neg (by rw [hpk]; simpa using fun h => hne h.symm)]
      exact jlookup_map_replace k k' v hne rest
    · simp only [List.map_cons, if_neg hpk]
      rw [jlookup, jlookup]
      by_cases hq : p.1 = k'
      · rw [if_pos hq, if_pos hq]
      · rw [if_neg hq, if_neg hq]
        exact jlookup_map_replace k k' v hne rest

theorem jlookup_append_single (k k' : String) (v : JVal) (hne : k' ≠ k) :
    ∀ d : JObj, jlookup (d ++ [(k, v)]) k' = jlookup d k'
  | [] => by
    rw [List.nil_append, jlookup, jlookup]
    exact if_neg (by simpa using fun h => hne h.symm)
  | p :: rest => by
    rw [List.cons_append, jlookup, jlookup]
    by_cases hq : p.1 = k'
    · rw [if_pos hq, if_pos hq]
    · rw [if_neg hq, if_neg hq]
      exact jlookup_append_single k k' v hne rest

theorem jlookup_setField_other (d : JObj) (k k' : String) (v : JVal)
    (hne : k' ≠ k) : jlookup (setField d k v) k' = jlookup d k' := by
  unfold setField
  by_cases hc : (jlookup d k).isSome
  · rw [if_pos hc]
    exact jlookup_map_replace k k' v hne d
  · rw [if_neg hc]
    exact jlookup_append_single k k' v hne d

theorem jlookup_setField_self : ∀ (d : JObj) (k : String) (v : JVal),
    jlookup (setField d k v) k = some v := by
  intro d k v
  unfold setField
  by_cases hc : (jlookup d k).isSome
  · rw [if_pos hc]
    induction d with
    | nil => simp [jlookup] at hc
    | cons p rest ih =>
      by_cases hpk : p.1 = k
      · simp only [List.map_cons, if_pos hpk]
        rw [jlookup]
        simp
      · simp only [List.map_cons, if_neg hpk]
        rw [jlookup, if_neg hpk]
        rw [jlookup, if_neg hpk] at hc
        exact ih hc
  · rw [if_neg hc]
    induction d with
    | nil => simp [jlookup]
    | cons p rest ih =>
      have hpk : p.1 ≠ k := by
        intro he
        apply hc
        simp [jlookup, he]
      rw [List.cons_append, jlookup, if_neg hpk]
      apply ih
      rw [jlookup, if_neg hpk] at hc
      exact hc

/-- The three-field `$set` of update-mode leaves every other field alone. -/
theorem jlookup_setFields3_other (d : JObj) (a b c : JVal) (k : String)
    (h1 : k ≠ kKeywords) (h2 : k ≠ kAdText) (h3 : k ≠ kDateWritten) :
    jlookup (setFields d [(kKeywords, a), (kAdText, b), (kDateWritten, c)]) k
      = jlookup d k := by
  simp only [setFields, List.foldl]
  rw [jlookup_setField_other _ _ _ _ h3, jlookup_setField_other _ _ _ _ h2,
    jlookup_setField_other _ _ _ _ h1]

theorem jlookup_setFields3_self (d : JObj) (a b c : JVal) :
    jlookup (setFields d [(kKeywords, a), (kAdText, b), (kDateWritten, c)]) kKeywords = some a
    ∧ jlookup (setFields d [(kKeywords, a), (kAdText, b), (kDateWritten, c)]) kAdText = some b
    ∧ jlookup (setFields d [(kKeywords, a), (kAdText, b), (kDateWritten, c)]) kDateWritten = some c := by
  simp only [setFields, List.foldl]
  refine ⟨?_, ?_, ?_⟩
  · rw [jlookup_setField_other _ _ _ _ (by decide), jlookup_setField_other _ _ _ _ (by decide),
      jlookup_setField_self]
  · rw [jlookup_setField_other _ _ _ _ (by decide), jlookup_setField_self]
  · rw [jlookup_setField_self]

theorem updateOne_length (idv : JVal) (sets : JObj) :
    ∀ docs : List JObj, ((updateOne idv sets docs).1).length = docs.length
  | [] => rfl
  | doc :: rest => by
    by_cases h : jlookup doc kId = some idv
    · simp [updateOne, h]
    · simp [updateOne, h, updateOne_length idv sets rest]

/-- Positionally, an update leaves a document unchanged or — when its `_id`
matches — applies exactly the `$set`. -/
theorem updateOne_get? (idv : JVal) (sets : JObj) :
    ∀ (docs : List JObj) (i : Nat),
      ((updateOne idv sets docs).1.get? i = docs.get? i) ∨
        (∃ d, docs.get? i = some d ∧
          (updateOne idv sets docs).1.get? i = some (setFields d sets) ∧
          jlookup d kId = some idv)
  | [], i => by left; rfl
  | doc :: rest, i => by
    by_cases hid : jlookup doc kId = some idv
    · cases i with
      | zero =>
        right
        exact ⟨doc, rfl, by simp [updateOne, hid], hid⟩
      | succ n =>
        left
        simp [updateOne, hid]
    · cases i with
      | zero =>
        left
        simp [updateOne, hid]
      | succ n =>
        have h := updateOne_get? idv sets rest n
        have hstep : (updateOne idv sets (doc :: rest)).1.get? (n + 1)
            = (updateOne idv sets rest).1.get? n := by
          simp [updateOne, hid]
        rcases h with hl | ⟨d, hd, hupd, hlk⟩
        · left
          rw [hstep, hl]
          rfl
        · right
          exact ⟨d, hd, by rw [hstep, hupd], hlk⟩

/-- When some document carries the filtered `_id`, the update hits one. -/
theorem updateOne_hit (idv : JVal) (sets : JObj) :
    ∀ docs : List JObj, (∃ doc ∈ docs, jlookup doc kId = some idv) →
      ∃ (i : Nat) (d : JObj), docs.get? i = some d ∧ jlookup d kId = some idv ∧
        (updateOne idv sets docs).1.get? i = some (setFields d sets)
  | [], hex => absurd hex (by simp)
  | doc :: rest, hex => by
    by_cases hid : jlookup doc kId = some idv
    · exact ⟨0, doc, rfl, hid, by simp [updateOne, hid]⟩
    · have hex' : ∃ d ∈ rest, jlookup d kId = some idv := by
        rcases hex with ⟨d, hd, hlk⟩
        rcases List.mem_cons.mp hd with rfl | hmem
        · exact absurd hlk hid
        · exact ⟨d, hmem, hlk⟩
      rcases updateOne_hit idv sets rest hex' with ⟨i, d, hd, hlk, hupd⟩
      refine ⟨i + 1, d, by simpa using hd, hlk, ?_⟩
      have hstep : (updateOne idv sets (doc :: rest)).1.get? (i + 1)
          = (updateOne idv sets rest).1.get? i := by
        simp [updateOne, hid]
      rw [hstep, hupd]

theorem mostRecent_mem : ∀ {docs : List JObj} {d : JObj},
    mostRecent docs = some d → d ∈ docs
  | [], d, h => by simp [mostRecent] at h
  | x :: xs, d, h => by
    cases hmr : mostRecent xs with
    | none =>
      simp only [mostRecent, hmr] at h
      injection h with h
      exact h ▸ List.mem_cons_self x xs
    | some b =>
      simp only [mostRecent, hmr] at h
      by_cases hge : idNat x ≥ idNat b
      · rw [if_pos hge] at h
        injection h with h
        exact h ▸ List.mem_cons_self x xs
      · rw [if_neg hge] at h
        injection h with h
        exact List.mem_cons_of_mem x (h ▸ mostRecent_mem hmr)

/-! ### Helper lemmas: store and batch accounting -/

theorem getColl_setColl_self : ∀ (db : DB) (n : String) (ds : List JObj),
    getColl (setColl db n ds) n = ds
  | [], n, ds => by simp [setColl, getColl]
  | (m, ds0) :: rest, n, ds => by
    by_cases h : m = n
    · simp [setColl, getColl, h]
    · simp [setColl, getColl, h, getColl_setColl_self rest n ds]

theorem getColl_setColl_ne : ∀ (db : DB) (n n' : String) (ds : List JObj),
    n' ≠ n → getColl (setColl db n ds) n' = getColl db n'
  | [], n, n', ds, h => by
    have h' : ¬ (n = n') := fun he => h he.symm
    simp [setColl, getColl, h']
  | (m, ds0) :: rest, n, n', ds, h => by
    by_cases hm : m = n
    · subst hm
      have h' : ¬ (m = n') := fun he => h he.symm
      simp [setColl, getColl, h']
    · simp only [setColl, if_neg hm]
      rw [getColl, getColl]
      by_cases hm' : m = n'
      · rw [if_pos hm', if_pos hm']
      · rw [if_neg hm', if_neg hm']
        exact getColl_setColl_ne rest n n' ds h

theorem dbSize_setColl : ∀ (db : DB) (n : String) (ds : List JObj),
    dbSize (setColl db n ds) + (getColl db n).length = dbSize db + ds.length
  | [], n, ds => by simp [setColl, getColl, dbSize]
  | (m, ds0) :: rest, n, ds => by
    by_cases h : m = n
    · simp only [setColl, if_pos h, getColl, if_pos h, dbSize]
      omega
    · simp only [setColl, if_neg h, getColl, if_neg h, dbSize]
      have := dbSize_setColl rest n ds
      omega

/-- Inserting one document grows the store by exactly one. -/
theorem dbSize_insert (db : DB) (n : String) (d : JObj) :
    dbSize (setColl db n (getColl db n ++ [d])) = dbSize db + 1 := by
  have := dbSize_setColl db n (getColl db n ++ [d])
  simp only [List.length_append, List.length_cons, List.length_nil] at this
  omega

/-! ### Helper lemmas: chunking -/

theorem pyChunks_length (m : Nat) (content : List Char) :
    (pyChunks m content).length = (content.length + m - 1) / m := by
  simp [pyChunks]

theorem pyChunks_nil (m : Nat) : pyChunks m [] = [] := by
  have d : (m - 1) / m = 0 := by
    rcases Nat.eq_zero_or_pos m with rfl | hm
    · simp
    · exact Nat.div_eq_of_lt (by omega)
  simp [pyChunks, d]

theorem pyChunks_cons (m : Nat) (hm : 0 < m) (l : List Char) (hl : l ≠ []) :
    pyChunks m l = l.take m :: pyChunks m (l.drop m) := by
  have hL : 1 ≤ l.length := by
    cases l with
    | nil => exact absurd rfl hl
    | cons a as => simp
  have hcount : (l.length + m - 1) / m = ((l.length - m) + m - 1) / m + 1 := by
    rcases Nat.le_total m l.length with hle | hlt
    · have e1 : l.length + m - 1 = (l.length - 1) + m := by omega
      have e2 : (l.length - m) + m - 1 = l.length - 1 := by omega
      rw [e1, Nat.add_div_right _ hm, e2]
    · have e1 : l.length + m - 1 = (l.length - 1) + m := by omega
      have e2 : (l.length - m) + m - 1 = m - 1 := by omega
      have d1 : (l.length - 1) / m = 0 := Nat.div_eq_of_lt (by omega)
      have d2 : (m - 1) / m = 0 := Nat.div_eq_of_lt (by omega)
      rw [e1, Nat.add_div_right _ hm, e2, d1, d2]
  unfold pyChunks
  rw [List.length_drop, hcount, List.range_succ_eq_map]
  rw [List.map_cons]
  congr 1
  · simp
  · rw [List.map_map]
    apply List.map_congr_left
    intro k _
    show (l.drop ((k + 1) * m)).take m = ((l.drop m).drop (k * m)).take m
    rw [List.drop_drop, Nat.succ_mul, Nat.add_comm (k * m) m]

theorem pyChunks_flatten_fuel (m : Nat) (hm : 0 < m) :
    ∀ (n : Nat) (l : List Char), l.length ≤ n → (pyChunks m l).flatten = l
  | _, [], _ => by rw [pyChunks_nil]; rfl
  | 0, c :: cs, h => by simp at h
  | n + 1, c :: cs, h => by
    rw [pyChunks_cons m hm (c :: cs) (by simp)]
    rw [List.flatten_cons]
    rw [pyChunks_flatten_fuel m hm n ((c :: cs).drop m)
      (by rw [List.length_drop]; simp at h ⊢; omega)]
    exact List.take_append_drop m (c :: cs)

theorem pyChunks_flatten (m : Nat) (hm : 0 < m) (l : List Char) :
    (pyChunks m l).flatten = l :=
  pyChunks_flatten_fuel m hm l.length l le_rfl

theorem pyChunks_le (m : Nat) (l : List Char) :
    ∀ c ∈ pyChunks m l, c.length ≤ m := by
  intro c hc
  simp only [pyChunks, List.mem_map, List.mem_range] at hc
  obtain ⟨k, _, rfl⟩ := hc
  simpa using List.length_take_le m (l.drop (k * m))

/-! ### Claim theorems -/

/-- C2: the retry controller makes exactly two total attempts of the external
call per Job: if attempt 1 fails and attempt 2 succeeds, the successful
result is returned and the failed attempt is logged by its attempt number;
if both attempts fail, the error raised by the second attempt propagates
unchanged, with no third attempt (and no backoff — the embedded loop retries
immediately, there is no delay step in the code). -/
theorem c2_retry_two_attempts (oracle : Nat → Except String JObj) (e0 : String)
    (h0 : oracle 0 = Except.error e0) :
    (∀ a, oracle 1 = Except.ok a →
      callWithRetry oracle = (Except.ok a, 2, [1])) ∧
    (∀ e1, oracle 1 = Except.error e1 →
      callWithRetry oracle = (Except.error e1, 2, [1])) := by
  constructor
  · intro a h1
    simp [callWithRetry, retryGo, h0, h1]
  · intro e1 h1
    simp [callWithRetry, retryGo, h0, h1]

theorem c2_witness :
    callWithRetry oracleRecover = (Except.ok [], 2, [1]) ∧
    callWithRetry oracleDown = (Except.error "fail2", 2, [1]) :=
  ⟨(c2_retry_two_attempts oracleRecover "transient" rfl).1 [] rfl,
   (c2_retry_two_attempts oracleDown "fail1" rfl).2 "fail2" rfl⟩

/-- C7: for content longer than 1900 characters, `send_discord_message`
splits it into `⌈len/1900⌉` ordered parts that cover the content in order,
each part at most 1900 characters, and sends each sequentially with the
`(Part i/N) ` label prepended. -/
theorem c7_chunked_notification (content : List Char)
    (h : MAX_LENGTH < content.length) :
    (pyChunks MAX_LENGTH content).length = (content.length + 1899) / 1900 ∧
    (pyChunks MAX_LENGTH content).flatten = content ∧
    (∀ c ∈ pyChunks MAX_LENGTH content, c.length ≤ 1900) ∧
    send_discord_message content =
      (pyChunks MAX_LENGTH content).enum.map
        (fun p => partLabel (p.1 + 1) (pyChunks MAX_LENGTH content).length ++ p.2) := by
  refine ⟨?_, pyChunks_flatten _ (by decide) _, ?_, ?_⟩
  · rw [pyChunks_length]
    simp only [MAX_LENGTH]
    omega
  · intro c hc
    simpa [MAX_LENGTH] using pyChunks_le MAX_LENGTH content c hc
  · rw [send_discord_message, if_neg (by omega)]

theorem c7_witness :
    MAX_LENGTH < (List.replicate 5000 'a').length ∧
    (pyChunks MAX_LENGTH (List.replicate 5000 'a')).length = 3 ∧
    (pyChunks MAX_LENGTH (List.replicate 5000 'a')).flatten = List.replicate 5000 'a' ∧
    (∀ c ∈ pyChunks MAX_LENGTH (List.replicate 5000 'a'), c.length ≤ 1900) ∧
    send_discord_message (List.replicate 5000 'a') =
      (pyChunks MAX_LENGTH (List.replicate 5000 'a')).enum.map
        (fun p => partLabel (p.1 + 1) 3 ++ p.2) := by
  have h : MAX_LENGTH < (List.replicate 5000 'a').length := by
    rw [List.length_replicate]
    decide
  have hc := c7_chunked_notification (List.replicate 5000 'a') h
  have hlen : (pyChunks MAX_LENGTH (List.replicate 5000 'a')).length = 3 := by
    rw [hc.1, List.length_replicate]
  refine ⟨h, hlen, hc.2.1, hc.2.2.1, ?_⟩
  rw [hc.2.2.2, hlen]

/-- C1: for a Job whose most recent prior document carries all three of
`user_personas`, `business`, `list_of_paths_taken`, reconciliation runs in
update-mode: the write succeeds without consuming a fresh id (no insert, so
the collection keeps its size and no duplicate appears), every field other
than `list_of_keywords`, `list_of_ad_text`, `date_written` is preserved on
every document, documents whose `_id` differs from the prior document's are
untouched, and the matched document receives exactly the new keywords, ad
text and date stamp. -/
theorem c1_update_mode_no_duplicate
    (bn : String) (data : JObj) (docs : List JObj) (nid : Nat) (today : DateW)
    (webhook : Option String) (discordFail : Option String)
    (d : JObj) (idv kwv adv : JVal)
    (hmr : mostRecent docs = some d) (hcomp : dmComplete d = true)
    (hid : jlookup d kId = some idv)
    (hkw : jlookup data kKeywords = some kwv)
    (had : jlookup data kAdText = some adv) :
    ∃ docs',
      dm_reconcile bn data docs nid today webhook discordFail =
        Except.ok (docs', nid, dmMessage webhook discordFail) ∧
      docs'.length = docs.length ∧
      (∀ (i : Nat) (k : String), k ≠ kKeywords → k ≠ kAdText → k ≠ kDateWritten →
        ∀ d0 d1, docs.get? i = some d0 → docs'.get? i = some d1 →
          jlookup d1 k = jlookup d0 k) ∧
      (∀ (i : Nat) (d0 d1 : JObj), docs.get? i = some d0 →
        jlookup d0 kId ≠ some idv → docs'.get? i = some d1 → d1 = d0) ∧
      (∃ (i : Nat) (d0 : JObj), docs.get? i = some d0 ∧
        jlookup d0 kId = some idv ∧
        ∃ d1, docs'.get? i = some d1 ∧
          jlookup d1 kKeywords = some kwv ∧
          jlookup d1 kAdText = some adv ∧
          jlookup d1 kDateWritten
            = some (JVal.vdate today.year today.month today.day)) := by
  refine ⟨(updateOne idv [(kKeywords, kwv), (kAdText, adv),
      (kDateWritten, JVal.vdate today.year today.month today.day)] docs).1,
    ?_, ?_, ?_, ?_, ?_⟩
  · rw [dm_reconcile, hmr]
    rw [dm_write_to_mongodb]
    have hud : dmUpdateMode (mkExistingData bn d) = true := by
      rw [mkExistingData, if_pos hcomp, dmUpdateMode]
      simp [jlookup, kId]
    simp only [mkExistingData, if_pos hcomp, dmUpdateMode] at hud ⊢
    simp only [hud, if_true, Option.getD]
    simp only [req, hkw, had, hid]
    rfl
  · exact updateOne_length _ _ docs
  · intro i k h1 h2 h3 d0 d1 hd0 hd1
    rcases updateOne_get? idv _ docs i with hsame | ⟨dd, hdd, hupd, _⟩
    · rw [hd0] at hsame
      rw [hsame] at hd1
      injection hd1 with hd1
      rw [hd1]
    · rw [hd0] at hdd
      injection hdd with hdd
      rw [hupd] at hd1
      injection hd1 with hd1
      rw [← hd1, ← hdd]
      exact jlookup_setFields3_other d0 kwv adv _ k h1 h2 h3
  · intro i d0 d1 hd0 hne hd1
    rcases updateOne_get? idv _ docs i with hsame | ⟨dd, hdd, hupd, hlk⟩
    · rw [hd0] at hsame
      rw [hsame] at hd1
      injection hd1 with hd1
      exact hd1.symm
    · rw [hd0] at hdd
      injection hdd with hdd
      rw [← hdd] at hlk
      exact absurd hlk hne
  · have hmem : d ∈ docs := mostRecent_mem hmr
    rcases updateOne_hit idv [(kKeywords, kwv), (kAdText, adv),
        (kDateWritten, JVal.vdate today.year today.month today.day)] docs
        ⟨d, hmem, hid⟩ with ⟨i, d0, hd0, hlk, hupd⟩
    refine ⟨i, d0, hd0, hlk, setFields d0 _, hupd, ?_, ?_, ?_⟩
    · exact (jlookup_setFields3_self d0 kwv adv _).1
    · exact (jlookup_setFields3_self d0 kwv adv _).2.1
    · exact (jlookup_setFields3_self d0 kwv adv _).2.2

theorem c1_witness :
    mostRecent [dmDoc1] = some dmDoc1 ∧
    dmComplete dmDoc1 = true ∧
    ∃ docs',
      dm_reconcile "acme" dmData1 [dmDoc1] 7 ⟨2024, 7, 1⟩ none none =
        Except.ok (docs', 7, dmMessage none none) ∧
      docs'.length = [dmDoc1].length ∧
      (∀ (i : Nat) (k : String), k ≠ kKeywords → k ≠ kAdText → k ≠ kDateWritten →
        ∀ d0 d1, [dmDoc1].get? i = some d0 → docs'.get? i = some d1 →
          jlookup d1 k = jlookup d0 k) ∧
      (∀ (i : Nat) (d0 d1 : JObj), [dmDoc1].get? i = some d0 →
        jlookup d0 kId ≠ some (JVal.vid 0) → docs'.get? i = some d1 → d1 = d0) ∧
      (∃ (i : Nat) (d0 : JObj), [dmDoc1].get? i = some d0 ∧
        jlookup d0 kId = some (JVal.vid 0) ∧
        ∃ d1, docs'.get? i = some d1 ∧
          jlookup d1 kKeywords = some (JVal.vstrs ["kw1", "kw2"]) ∧
          jlookup d1 kAdText = some (JVal.vstrs ["ad1"]) ∧
          jlookup d1 kDateWritten = some (JVal.vdate 2024 7 1)) :=
  ⟨by decide, by decide,
    c1_update_mode_no_duplicate "acme" dmData1 [dmDoc1] 7 ⟨2024, 7, 1⟩ none none
      dmDoc1 (JVal.vid 0) (JVal.vstrs ["kw1", "kw2"]) (JVal.vstrs ["ad1"])
      (by decide) (by decide) (by decide) (by decide) (by decide)⟩

/-! ### Per-record behaviour of the ProcessCompanyFunction Job Processor -/

/-- A fully successful Job: document inserted, notification sent, workflow
started, nothing on the DLQ. -/
theorem pc_record_ok (env : PCEnv) (today : DateW) (db : DB) (nid : Nat)
    (raw : String) (cd : JObj) (bnv emv : JVal) (agdata doc : JObj)
    (hload : loadsFlat raw = some cd)
    (hbn : jlookup cd kBusinessName = some bnv)
    (hpe : (jlookup cd kPersonas).isSome)
    (hem : jlookup cd kEmail = some emv)
    (hagent : (callWithRetry env.agent).1 = Except.ok agdata)
    (hsd : pc_structured_data agdata today = Except.ok doc)
    (hm : env.mongoFails = false) (hn : env.notifyFails = false)
    (hs : env.sfnFails = false) :
    pc_process_record env today db nid raw =
      ⟨setColl db (asStr bnv) (getColl db (asStr bnv) ++ [(kId, JVal.vid nid) :: doc]),
        nid + 1,
        ⟨[], [(asStr emv, pcSubject, pcBody (asStr bnv))],
          [dumps [(kBusinessName, JVal.vstr (asStr bnv)),
                  (kEmail, JVal.vstr (asStr emv))]]⟩, none⟩ := by
  obtain ⟨pv, hpv⟩ := Option.isSome_iff_exists.mp hpe
  simp only [pc_process_record, hload, hbn, hpv, hem, hagent, hsd, hm, hn, hs,
    Bool.false_eq_true, if_false]

/-- A Job whose agent call exhausts both attempts: no write, one DLQ publish
carrying the re-serialized parsed message. -/
theorem pc_record_agent_exhausted (env : PCEnv) (today : DateW) (db : DB)
    (nid : Nat) (raw : String) (cd : JObj) (e : String)
    (hload : loadsFlat raw = some cd)
    (hbn : (jlookup cd kBusinessName).isSome)
    (hpe : (jlookup cd kPersonas).isSome)
    (hem : (jlookup cd kEmail).isSome)
    (hagent : (callWithRetry env.agent).1 = Except.error e)
    (hdlq : env.dlqFails = false) :
    pc_process_record env today db nid raw =
      ⟨db, nid, ⟨[dumps cd], [], []⟩, none⟩ := by
  obtain ⟨bnv, hbnv⟩ := Option.isSome_iff_exists.mp hbn
  obtain ⟨pv, hpv⟩ := Option.isSome_iff_exists.mp hpe
  obtain ⟨emv, hemv⟩ := Option.isSome_iff_exists.mp hem
  simp only [pc_process_record, hload, hbnv, hpv, hemv, hagent, dlqRoute, hdlq,
    Bool.false_eq_true, if_false]

/-- A Job whose write succeeded but whose SES notify raises: the document
stays inserted and the Job is still routed to the DLQ. -/
theorem pc_record_notify_fails (env : PCEnv) (today : DateW) (db : DB)
    (nid : Nat) (raw : String) (cd : JObj) (bnv : JVal) (agdata doc : JObj)
    (hload : loadsFlat raw = some cd)
    (hbn : jlookup cd kBusinessName = some bnv)
    (hpe : (jlookup cd kPersonas).isSome)
    (hem : (jlookup cd kEmail).isSome)
    (hagent : (callWithRetry env.agent).1 = Except.ok agdata)
    (hsd : pc_structured_data agdata today = Except.ok doc)
    (hm : env.mongoFails = false) (hn : env.notifyFails = true)
    (hdlq : env.dlqFails = false) :
    pc_process_record env today db nid raw =
      ⟨setColl db (asStr bnv) (getColl db (asStr bnv) ++ [(kId, JVal.vid nid) :: doc]),
        nid + 1, ⟨[dumps cd], [], []⟩, none⟩ := by
  obtain ⟨pv, hpv⟩ := Option.isSome_iff_exists.mp hpe
  obtain ⟨emv, hemv⟩ := Option.isSome_iff_exists.mp hem
  simp only [pc_process_record, hload, hbn, hpv, hemv, hagent, hsd, hm, hn,
    dlqRoute, hdlq, Bool.false_eq_true, if_false, if_true]

/-- A Job whose write and notify succeeded but whose Step Functions start
raises: the document stays inserted and the Job is routed to the DLQ. -/
theorem pc_record_sfn_fails (env : PCEnv) (today : DateW) (db : DB)
    (nid : Nat) (raw : String) (cd : JObj) (bnv emv : JVal) (agdata doc : JObj)
    (hload : loadsFlat raw = some cd)
    (hbn : jlookup cd kBusinessName = some bnv)
    (hpe : (jlookup cd kPersonas).isSome)
    (hem : jlookup cd kEmail = some emv)
    (hagent : (callWithRetry env.agent).1 = Except.ok agdata)
    (hsd : pc_structured_data agdata today = Except.ok doc)
    (hm : env.mongoFails = false) (hn : env.notifyFails = false)
    (hs : env.sfnFails = true) (hdlq : env.dlqFails = false) :
    pc_process_record env today db nid raw =
      ⟨setColl db (asStr bnv) (getColl db (asStr bnv) ++ [(kId, JVal.vid nid) :: doc]),
        nid + 1, ⟨[dumps cd], [(asStr emv, pcSubject, pcBody (asStr bnv))], []⟩,
        none⟩ := by
  obtain ⟨pv, hpv⟩ := Option.isSome_iff_exists.mp hpe
  simp only [pc_process_record, hload, hbn, hpv, hem, hagent, hsd, hm, hn, hs,
    dlqRoute, hdlq, Bool.false_eq_true, if_false, if_true]

/-- C3 (amended): a Job whose retries are exhausted publishes exactly one
DLQ message, whose body is the canonical `json.dumps` re-serialization of
the parsed original message — JSON-equal to the original, but not
byte-for-byte identical in general. -/
theorem c3_dlq_reserialized (env : PCEnv) (today : DateW) (db : DB) (nid : Nat)
    (raw : String) (cd : JObj) (e : String)
    (hload : loadsFlat raw = some cd)
    (hbn : (jlookup cd kBusinessName).isSome)
    (hpe : (jlookup cd kPersonas).isSome)
    (hem : (jlookup cd kEmail).isSome)
    (hagent : (callWithRetry env.agent).1 = Except.error e)
    (hdlq : env.dlqFails = false) :
    pc_process_record env today db nid raw =
      ⟨db, nid, ⟨[dumps cd], [], []⟩, none⟩ :=
  pc_record_agent_exhausted env today db nid raw cd e hload hbn hpe hem hagent hdlq

/-- C3 counterexample: for the compact original body `rawMsg1`, the single
DLQ publish carries the re-serialized body, which differs byte-for-byte
from the original. -/
theorem c3_counterexample :
    loadsFlat rawMsg1 = some cdMsg1 ∧
    (pc_process_record envAgentDown ⟨2024, 7, 1⟩ [] 0 rawMsg1).eff.dlq
      = [dumps cdMsg1] ∧
    dumps cdMsg1 ≠ rawMsg1 := by decide

theorem c3_witness :
    pc_process_record envAgentDown ⟨2024, 7, 1⟩ [] 0 rawMsg1 =
      ⟨[], 0, ⟨[dumps cdMsg1], [], []⟩, none⟩ :=
  c3_dlq_reserialized envAgentDown ⟨2024, 7, 1⟩ [] 0 rawMsg1 cdMsg1 "agent down"
    (by decide) (by decide) (by decide) (by decide) (by decide) rfl

/-- C6 (amended): notification failure after a successful write never rolls
the write back, but the two variants treat it differently.  In the
DecisionMaker variant the Discord `RequestException` is caught inside
`write_to_mongodb`: the write result is unchanged and only the returned
message degrades, so the Job cannot reach the DLQ from it.  In the
ProcessCompany variant the SES failure re-raises, so the Job is routed to
the DLQ even though the inserted document stays in place. -/
theorem c6_notify_best_effort :
    (∀ (data : JObj) (existing_data : Option JObj) (docs : List JObj)
        (nid : Nat) (today : DateW) (url e : String) (docs' : List JObj)
        (nid' : Nat) (m0 : String),
      dm_write_to_mongodb data existing_data docs nid today (some url) none =
        Except.ok (docs', nid', m0) →
      dm_write_to_mongodb data existing_data docs nid today (some url) (some e) =
        Except.ok (docs', nid',
          "Success: Data written to MongoDB, but failed to send Discord message: "
            ++ e)) ∧
    (∀ (env : PCEnv) (today : DateW) (db : DB) (nid : Nat) (raw : String)
        (cd : JObj) (bnv : JVal) (agdata doc : JObj),
      loadsFlat raw = some cd →
      jlookup cd kBusinessName = some bnv →
      (jlookup cd kPersonas).isSome →
      (jlookup cd kEmail).isSome →
      (callWithRetry env.agent).1 = Except.ok agdata →
      pc_structured_data agdata today = Except.ok doc →
      env.mongoFails = false → env.notifyFails = true → env.dlqFails = false →
      pc_process_record env today db nid raw =
        ⟨setColl db (asStr bnv) (getColl db (asStr bnv) ++ [(kId, JVal.vid nid) :: doc]),
          nid + 1, ⟨[dumps cd], [], []⟩, none⟩) := by
  constructor
  · intro data existing_data docs nid today url e docs' nid' m0 h
    rw [dm_write_to_mongodb] at h ⊢
    by_cases hu : dmUpdateMode existing_data = true
    · cases hkw : jlookup data kKeywords with
      | none => simp [hu, req, hkw, Bind.bind, Except.bind] at h
      | some kwv =>
        cases had : jlookup data kAdText with
        | none => simp [hu, req, hkw, had, Bind.bind, Except.bind] at h
        | some adv =>
          simp only [hu, if_true, req, hkw, had, Bind.bind, Except.bind,
            Except.ok.injEq, Prod.mk.injEq, dmMessage] at h ⊢
          obtain ⟨h1, h2, h3⟩ := h
          exact ⟨h1, h2, trivial⟩
    · have hu' : dmUpdateMode existing_data = false := by
        simpa using hu
      cases hkw : jlookup data kKeywords with
      | none => simp [hu', req, hkw, Bind.bind, Except.bind] at h
      | some kwv =>
        cases had : jlookup data kAdText with
        | none => simp [hu', req, hkw, had, Bind.bind, Except.bind] at h
        | some adv =>
          simp only [hu', Bool.false_eq_true, if_false, req, hkw, had, Bind.bind,
            Except.bind, Except.ok.injEq, Prod.mk.injEq, dmMessage] at h ⊢
          obtain ⟨h1, h2, h3⟩ := h
          exact ⟨h1, h2, trivial⟩
  · intro env today db nid raw cd bnv agdata doc hload hbn hpe hem hagent hsd hm hn hdlq
    exact pc_record_notify_fails env today db nid raw cd bnv agdata doc
      hload hbn hpe hem hagent hsd hm hn hdlq

/-- C6 counterexample: a ProcessCompany Job whose write succeeds and whose
notify fails IS routed to the DLQ (refuting the claim that notify failure
never causes a DLQ publish), while the document stays written. -/
theorem c6_counterexample :
    (pc_process_record envNotifyDown ⟨2024, 7, 1⟩ [] 0 rawMsg1).eff.dlq
      = [dumps cdMsg1] ∧
    getColl (pc_process_record envNotifyDown ⟨2024, 7, 1⟩ [] 0 rawMsg1).db "acme"
      = [(kId, JVal.vid 0) :: dataFull1
          ++ [(kDateWritten, JVal.vdate 2024 7 1)]] ∧
    (pc_process_record envNotifyDown ⟨2024, 7, 1⟩ [] 0 rawMsg1).fatal = none := by
  decide

theorem c6_witness :
    (dm_write_to_mongodb dataFull1 none [] 5 ⟨2024, 7, 1⟩ (some "hook") none =
        Except.ok ([[(kId, JVal.vid 5), (kKeywords, JVal.vstrs ["kw"]),
          (kAdText, JVal.vstrs ["ad"]), (kPaths, JVal.vstrs ["p"]),
          (kBusiness, JVal.vobj 1), (kUserPersonas, JVal.vobj 2),
          (kDateWritten, JVal.vdate 2024 7 1)]], 6,
          "Success: Data written to MongoDB and Discord message sent")) ∧
    (dm_write_to_mongodb dataFull1 none [] 5 ⟨2024, 7, 1⟩ (some "hook") (some "timeout") =
        Except.ok ([[(kId, JVal.vid 5), (kKeywords, JVal.vstrs ["kw"]),
          (kAdText, JVal.vstrs ["ad"]), (kPaths, JVal.vstrs ["p"]),
          (kBusiness, JVal.vobj 1), (kUserPersonas, JVal.vobj 2),
          (kDateWritten, JVal.vdate 2024 7 1)]], 6,
          "Success: Data written to MongoDB, but failed to send Discord message: "
            ++ "timeout")) ∧
    pc_process_record envNotifyDown ⟨2024, 7, 1⟩ [] 0 rawMsg1 =
      ⟨[("acme", [(kId, JVal.vid 0) :: dataFull1
          ++ [(kDateWritten, JVal.vdate 2024 7 1)]])], 1,
        ⟨[dumps cdMsg1], [], []⟩, none⟩ := by
  have h1 : dm_write_to_mongodb dataFull1 none [] 5 ⟨2024, 7, 1⟩ (some "hook") none =
      Except.ok ([[(kId, JVal.vid 5), (kKeywords, JVal.vstrs ["kw"]),
        (kAdText, JVal.vstrs ["ad"]), (kPaths, JVal.vstrs ["p"]),
        (kBusiness, JVal.vobj 1), (kUserPersonas, JVal.vobj 2),
        (kDateWritten, JVal.vdate 2024 7 1)]], 6,
        "Success: Data written to MongoDB and Discord message sent") := by decide
  refine ⟨h1, (c6_notify_best_effort.1 dataFull1 none [] 5 ⟨2024, 7, 1⟩
    "hook" "timeout" _ 6 _ h1), ?_⟩
  have h2 := c6_notify_best_effort.2 envNotifyDown ⟨2024, 7, 1⟩ [] 0 rawMsg1
    cdMsg1 (JVal.vstr "acme") dataFull1
    (dataFull1 ++ [(kDateWritten, JVal.vdate 2024 7 1)])
    (by decide) (by decide) (by decide) (by decide) (by decide) (by decide)
    rfl rfl rfl
  simpa using h2

/-- C5 (amended): with no prior document or an incomplete one, the
DecisionMaker reconciliation inserts a new document built from the required
fields, the optional fields defaulting to null (`.get` semantics) rather
than erroring, plus a `date_written` stamp from the current date; the
ProcessCompany variant's write instead requires `list_of_paths_taken` (and
the other three fields) outright and raises `KeyError` when it is absent. -/
theorem c5_insert_mode
    (bn : String) (data : JObj) (docs : List JObj) (nid : Nat) (today : DateW)
    (webhook discordFail : Option String) (kwv adv : JVal)
    (hprior : mostRecent docs = none ∨
      ∃ d, mostRecent docs = some d ∧ dmComplete d = false)
    (hkw : jlookup data kKeywords = some kwv)
    (had : jlookup data kAdText = some adv) :
    dm_reconcile bn data docs nid today webhook discordFail =
      Except.ok (docs ++ [[(kId, JVal.vid nid), (kKeywords, kwv), (kAdText, adv),
        (kPaths, (jlookup data kPaths).getD JVal.vnull),
        (kBusiness, (jlookup data kBusiness).getD JVal.vnull),
        (kUserPersonas, (jlookup data kUserPersonas).getD JVal.vnull),
        (kDateWritten, JVal.vdate today.year today.month today.day)]],
        nid + 1, dmMessage webhook discordFail) ∧
    (jlookup data kPaths = none →
      pc_structured_data data today = Except.error ("KeyError: " ++ kPaths)) := by
  constructor
  · rw [dm_reconcile]
    have hed : (match mostRecent docs with
        | some d => mkExistingData bn d
        | none => none) = (none : Option JObj) := by
      rcases hprior with h | ⟨d, hd, hc⟩
      · rw [h]
      · rw [hd]
        simp only [mkExistingData, hc, Bool.false_eq_true, if_false]
    rw [hed, dm_write_to_mongodb]
    have hu : dmUpdateMode (none : Option JObj) = false := rfl
    simp only [hu, Bool.false_eq_true, if_false, req, hkw, had, Bind.bind,
      Except.bind]
  · intro hpaths
    simp only [pc_structured_data, req, hkw, had, hpaths, Bind.bind, Except.bind]

/-- C5 counterexample: a ProcessCompany Job with no prior document whose
agent result lacks `list_of_paths_taken` / `business` / `user_personas`
does not insert a document with nulls — the write raises `KeyError` and the
Job lands on the DLQ with nothing written. -/
theorem c5_counterexample :
    pc_structured_data dataOnlyRequired ⟨2024, 7, 1⟩
      = Except.error ("KeyError: " ++ kPaths) ∧
    (pc_process_record envOptionalMissing ⟨2024, 7, 1⟩ [] 0 rawMsg1).db = [] ∧
    (pc_process_record envOptionalMissing ⟨2024, 7, 1⟩ [] 0 rawMsg1).eff.dlq
      = [dumps cdMsg1] := by decide

theorem c5_witness :
    dm_reconcile "acme" dataOnlyRequired [] 3 ⟨2024, 7, 1⟩ none none =
      Except.ok ([[(kId, JVal.vid 3), (kKeywords, JVal.vstrs ["kw"]),
        (kAdText, JVal.vstrs ["ad"]), (kPaths, JVal.vnull),
        (kBusiness, JVal.vnull), (kUserPersonas, JVal.vnull),
        (kDateWritten, JVal.vdate 2024 7 1)]], 4, dmMessage none none) ∧
    pc_structured_data dataOnlyRequired ⟨2024, 7, 1⟩
      = Except.error ("KeyError: " ++ kPaths) := by
  have h := c5_insert_mode "acme" dataOnlyRequired [] 3 ⟨2024, 7, 1⟩ none none
    (JVal.vstrs ["kw"]) (JVal.vstrs ["ad"]) (Or.inl rfl) (by decide) (by decide)
  exact ⟨by simpa using h.1, h.2 (by decide)⟩

/-- C10: in the ProcessCompanyFunction variant, a Job whose insert succeeds
but whose notify or workflow-trigger step raises is still routed to the DLQ
while the inserted document stays in place; because the write is an
unconditional insert, reprocessing that DLQ entry (whose body parses back
to the same record) inserts a second document for the same business. -/
theorem c10_insert_then_dlq_duplicate
    (env env2 : PCEnv) (today : DateW) (db : DB) (nid : Nat)
    (raw : String) (cd : JObj) (bnv emv : JVal) (agdata doc agdata2 doc2 : JObj)
    (hload : loadsFlat raw = some cd)
    (hbn : jlookup cd kBusinessName = some bnv)
    (hpe : (jlookup cd kPersonas).isSome)
    (hem : jlookup cd kEmail = some emv)
    (hagent : (callWithRetry env.agent).1 = Except.ok agdata)
    (hsd : pc_structured_data agdata today = Except.ok doc)
    (hm : env.mongoFails = false)
    (hfail : env.notifyFails = true ∨
      (env.notifyFails = false ∧ env.sfnFails = true))
    (hdlq : env.dlqFails = false)
    (hrt : loadsFlat (dumps cd) = some cd)
    (hagent2 : (callWithRetry env2.agent).1 = Except.ok agdata2)
    (hsd2 : pc_structured_data agdata2 today = Except.ok doc2)
    (hm2 : env2.mongoFails = false) (hn2 : env2.notifyFails = false)
    (hs2 : env2.sfnFails = false) :
    ∃ o : RecordOutcome,
      pc_process_record env today db nid raw = o ∧
      o.fatal = none ∧
      o.eff.dlq = [dumps cd] ∧
      o.nextId = nid + 1 ∧
      getColl o.db (asStr bnv)
        = getColl db (asStr bnv) ++ [(kId, JVal.vid nid) :: doc] ∧
      getColl (pc_process_record env2 today o.db o.nextId (dumps cd)).db (asStr bnv)
        = getColl db (asStr bnv)
          ++ [(kId, JVal.vid nid) :: doc, (kId, JVal.vid (nid + 1)) :: doc2] := by
  have hdb' : ∀ o : RecordOutcome,
      o.db = setColl db (asStr bnv)
        (getColl db (asStr bnv) ++ [(kId, JVal.vid nid) :: doc]) →
      o.nextId = nid + 1 →
      getColl (pc_process_record env2 today o.db o.nextId (dumps cd)).db (asStr bnv)
        = getColl db (asStr bnv)
          ++ [(kId, JVal.vid nid) :: doc, (kId, JVal.vid (nid + 1)) :: doc2] := by
    intro o hodb honid
    rw [pc_record_ok env2 today o.db o.nextId (dumps cd) cd bnv emv agdata2 doc2
      hrt hbn hpe hem hagent2 hsd2 hm2 hn2 hs2]
    show getColl (setColl o.db (asStr bnv)
      (getColl o.db (asStr bnv) ++ [(kId, JVal.vid o.nextId) :: doc2])) (asStr bnv) = _
    rw [getColl_setColl_self, hodb, honid, getColl_setColl_self]
    simp
  rcases hfail with hn | ⟨hn, hs⟩
  · refine ⟨_, pc_record_notify_fails env today db nid raw cd bnv agdata doc
      hload hbn hpe (Option.isSome_iff_exists.mpr ⟨emv, hem⟩) hagent hsd hm hn hdlq,
      rfl, rfl, rfl, ?_, ?_⟩
    · exact getColl_setColl_self db (asStr bnv) _
    · exact hdb' _ rfl rfl
  · refine ⟨_, pc_record_sfn_fails env today db nid raw cd bnv emv agdata doc
      hload hbn hpe hem hagent hsd hm hn hs hdlq,
      rfl, rfl, rfl, ?_, ?_⟩
    · exact getColl_setColl_self db (asStr bnv) _
    · exact hdb' _ rfl rfl

theorem c10_witness :
    ∃ o : RecordOutcome,
      pc_process_record envNotifyDown ⟨2024, 7, 1⟩ [] 0 rawMsg1 = o ∧
      o.fatal = none ∧
      o.eff.dlq = [dumps cdMsg1] ∧
      o.nextId = 1 ∧
      getColl o.db "acme"
        = [(kId, JVal.vid 0) :: (dataFull1 ++ [(kDateWritten, JVal.vdate 2024 7 1)])] ∧
      getColl (pc_process_record envAllOk ⟨2024, 7, 1⟩ o.db o.nextId (dumps cdMsg1)).db "acme"
        = [(kId, JVal.vid 0) :: (dataFull1 ++ [(kDateWritten, JVal.vdate 2024 7 1)]),
           (kId, JVal.vid 1) :: (dataFull1 ++ [(kDateWritten, JVal.vdate 2024 7 1)])] :=
  c10_insert_then_dlq_duplicate envNotifyDown envAllOk ⟨2024, 7, 1⟩ [] 0 rawMsg1
    cdMsg1 (JVal.vstr "acme") (JVal.vstr "a@b.c") dataFull1
    (dataFull1 ++ [(kDateWritten, JVal.vdate 2024 7 1)]) dataFull1
    (dataFull1 ++ [(kDateWritten, JVal.vdate 2024 7 1)])
    (by decide) (by decide) (by decide) (by decide) rfl (by decide) rfl
    (Or.inl rfl) rfl (by decide) rfl (by decide) rfl rfl rfl

/-- C8: whenever a batch invocation of either worker runs to completion (its
outcome is not an escaped exception), the returned value is the fixed
success acknowledgment, no matter how many individual Jobs failed. -/
theorem c8_batch_success_ack :
    (∀ (cfg : PCConfig) (today : DateW) (db : DB) (nid : Nat)
        (jobs : List (PCEnv × String)),
      (∃ e, (pc_process_company cfg today db nid jobs).outcome = Except.error e) ∨
      (pc_process_company cfg today db nid jobs).outcome = Except.ok success200) ∧
    (∀ (today : DateW) (db : DB) (nid : Nat) (jobs : List (DMEnv × String)),
      (∃ e, (dm_process_company today db nid jobs).outcome = Except.error e) ∨
      (dm_process_company today db nid jobs).outcome = Except.ok success200) := by
  constructor
  · intro cfg today db nid jobs
    induction jobs generalizing db nid with
    | nil => right; rfl
    | cons j rest ih =>
      cases hf : (pc_process_record j.1 today db nid j.2).fatal with
      | some e =>
        left
        exact ⟨e, by simp only [pc_process_company, hf]⟩
      | none =>
        have h := ih (pc_process_record j.1 today db nid j.2).db
          (pc_process_record j.1 today db nid j.2).nextId
        simpa only [pc_process_company, hf] using h
  · intro today db nid jobs
    induction jobs generalizing db nid with
    | nil => right; rfl
    | cons j rest ih =>
      cases hf : (dm_process_record j.1 today db nid j.2).fatal with
      | some e =>
        left
        exact ⟨e, by simp only [dm_process_company, hf]⟩
      | none =>
        have h := ih (dm_process_record j.1 today db nid j.2).db
          (dm_process_record j.1 today db nid j.2).nextId
        simpa only [dm_process_company, hf] using h

/-- A Job satisfying `jobOk` adds exactly one document, nothing on the DLQ,
and continues the batch. -/
theorem pc_record_ok_counts (today : DateW) (db : DB) (nid : Nat)
    (j : PCEnv × String) (h : jobOk today j) :
    (pc_process_record j.1 today db nid j.2).fatal = none ∧
    dbSize (pc_process_record j.1 today db nid j.2).db = dbSize db + 1 ∧
    (pc_process_record j.1 today db nid j.2).eff.dlq = [] := by
  obtain ⟨hwf, ⟨agdata, doc, hagent, hsd⟩, hm, hn, hs⟩ := h
  cases hload : loadsFlat j.2 with
  | none => simp [wfRecord, hload] at hwf
  | some cd =>
    simp only [wfRecord, hload, Bool.and_eq_true] at hwf
    obtain ⟨⟨hbn, hpe⟩, hem⟩ := hwf
    obtain ⟨bnv, hbnv⟩ := Option.isSome_iff_exists.mp hbn
    obtain ⟨emv, hemv⟩ := Option.isSome_iff_exists.mp hem
    rw [pc_record_ok j.1 today db nid j.2 cd bnv emv agdata doc hload hbnv hpe
      hemv hagent hsd hm hn hs]
    exact ⟨rfl, dbSize_insert db (asStr bnv) _, rfl⟩

/-- A batch of all-successful Jobs completes with one insert per Job and an
empty DLQ. -/
theorem pc_batch_all_ok (cfg : PCConfig) (today : DateW) :
    ∀ (jobs : List (PCEnv × String)) (db : DB) (nid : Nat),
      (∀ j ∈ jobs, jobOk today j) →
      (pc_process_company cfg today db nid jobs).outcome = Except.ok success200 ∧
      dbSize (pc_process_company cfg today db nid jobs).db
        = dbSize db + jobs.length ∧
      (pc_process_company cfg today db nid jobs).eff.dlq = []
  | [], db, nid, _ => ⟨rfl, rfl, rfl⟩
  | j :: rest, db, nid, hall => by
    obtain ⟨hf, hsz, hdlq⟩ :=
      pc_record_ok_counts today db nid j (hall j (by simp))
    have ih := pc_batch_all_ok cfg today rest
      (pc_process_record j.1 today db nid j.2).db
      (pc_process_record j.1 today db nid j.2).nextId
      (fun x hx => hall x (List.mem_cons_of_mem j hx))
    simp only [pc_process_company, hf]
    refine ⟨ih.1, ?_, ?_⟩
    · rw [ih.2.1, hsz]
      simp only [List.length_cons]
      omega
    · simp only [effAppend, hdlq, ih.2.2, List.nil_append]

/-- C4 (amended): in a batch where every Job before and after position `k`
succeeds and Job `k` fails by exhausting its external-call retries — a
failure inside the per-Job `try` — the batch completes with the success
acknowledgment, exactly `N-1` documents written and exactly one DLQ entry:
one Job's processing failure does not abort or affect its siblings.  (The
failure mode the original claim also includes, a message missing
`business_name` or another required field, instead aborts the whole batch:
see the counterexample.) -/
theorem c4_batch_isolation (cfg : PCConfig) (today : DateW)
    (pre post : List (PCEnv × String)) (envK : PCEnv) (rK : String) (e : String)
    (db : DB) (nid : Nat)
    (hpre : ∀ j ∈ pre, jobOk today j)
    (hpost : ∀ j ∈ post, jobOk today j)
    (hwfK : wfRecord rK = true)
    (hagentK : (callWithRetry envK.agent).1 = Except.error e)
    (hdlqK : envK.dlqFails = false) :
    (pc_process_company cfg today db nid (pre ++ (envK, rK) :: post)).outcome
      = Except.ok success200 ∧
    dbSize (pc_process_company cfg today db nid (pre ++ (envK, rK) :: post)).db
      = dbSize db + (pre.length + post.length) ∧
    (pc_process_company cfg today db nid (pre ++ (envK, rK) :: post)).eff.dlq.length
      = 1 := by
  induction pre generalizing db nid with
  | nil =>
    cases hload : loadsFlat rK with
    | none => simp [wfRecord, hload] at hwfK
    | some cd =>
      simp only [wfRecord, hload, Bool.and_eq_true] at hwfK
      obtain ⟨⟨hbn, hpe⟩, hem⟩ := hwfK
      have hrec := pc_record_agent_exhausted envK today db nid rK cd e hload
        hbn hpe hem hagentK hdlqK
      have hpost' := pc_batch_all_ok cfg today post db nid hpost
      simp only [List.nil_append, pc_process_company, hrec]
      refine ⟨hpost'.1, ?_, ?_⟩
      · rw [hpost'.2.1]
        simp only [List.length_nil]
        omega
      · simp only [effAppend, hpost'.2.2]
        rfl
  | cons p pre' ih =>
    obtain ⟨hf, hsz, hdlq⟩ :=
      pc_record_ok_counts today db nid p (hpre p (by simp))
    have ih' := ih (pc_process_record p.1 today db nid p.2).db
      (pc_process_record p.1 today db nid p.2).nextId
      (fun x hx => hpre x (List.mem_cons_of_mem p hx))
    simp only [List.cons_append, pc_process_company, hf, List.append_eq]
    refine ⟨ih'.1, ?_, ?_⟩
    · rw [ih'.2.1, hsz]
      simp only [List.length_cons]
      omega
    · simp only [effAppend, hdlq, List.nil_append]
      exact ih'.2.2

/-- C4 counterexample: in a 2-Job batch whose first message lacks
`business_name`, the `KeyError` escapes the per-record code and aborts the
whole batch — the sibling Job is never processed, zero documents are
written and zero DLQ entries are produced, contradicting the claimed
`N-1` documents and `1` DLQ entry. -/
theorem c4_counterexample :
    (pc_process_company cfgNone ⟨2024, 7, 1⟩ [] 0
        [(envAllOk, rawNoBn), (envAllOk, rawMsg1)]).outcome
      = Except.error ("KeyError: " ++ kBusinessName) ∧
    dbSize (pc_process_company cfgNone ⟨2024, 7, 1⟩ [] 0
        [(envAllOk, rawNoBn), (envAllOk, rawMsg1)]).db = 0 ∧
    (pc_process_company cfgNone ⟨2024, 7, 1⟩ [] 0
        [(envAllOk, rawNoBn), (envAllOk, rawMsg1)]).eff.dlq = [] := by
  decide

theorem c4_witness :
    (pc_process_company cfgNone ⟨2024, 7, 1⟩ [] 0
        [(envAllOk, rawMsg1), (envAgentDown, rawMsg1), (envAllOk, rawMsg1)]).outcome
      = Except.ok success200 ∧
    dbSize (pc_process_company cfgNone ⟨2024, 7, 1⟩ [] 0
        [(envAllOk, rawMsg1), (envAgentDown, rawMsg1), (envAllOk, rawMsg1)]).db
      = dbSize ([] : DB) + (1 + 1) ∧
    (pc_process_company cfgNone ⟨2024, 7, 1⟩ [] 0
        [(envAllOk, rawMsg1), (envAgentDown, rawMsg1), (envAllOk, rawMsg1)]).eff.dlq.length
      = 1 := by
  have hok : ∀ j ∈ ([(envAllOk, rawMsg1)] : List (PCEnv × String)),
      jobOk ⟨2024, 7, 1⟩ j := by
    intro j hj
    simp only [List.mem_singleton] at hj
    subst hj
    exact ⟨by decide,
      ⟨dataFull1, dataFull1 ++ [(kDateWritten, JVal.vdate 2024 7 1)], rfl, by decide⟩,
      rfl, rfl, rfl⟩
  exact c4_batch_isolation cfgNone ⟨2024, 7, 1⟩ [(envAllOk, rawMsg1)]
    [(envAllOk, rawMsg1)] envAgentDown rawMsg1 "agent down" [] 0
    hok hok (by decide) rfl rfl

/-- C9 (amended): only the enqueue function validates its configuration —
with any of its four variables unset or empty it returns the 500 error
naming exactly the missing ones before reading any company record, and
enqueues nothing; the worker functions perform no configuration check at
all: their batch behaviour is identical for every configuration, so a
missing worker variable does not stop queue messages from being read and
processed. -/
theorem c9_config_validation :
    (∀ (c : EnqConfig) (companies : List JObj),
      enqMissing c ≠ [] →
      enqueue_lambda_handler c companies =
        (⟨500, dumps [(kError, JVal.vstr ("Missing required environment variables: "
            ++ commaSep.intercalate (enqMissing c)))]⟩, []) ∧
      (∀ v, v ∈ enqMissing c ↔
        (v = "MONGO_URI" ∧ falsy c.MONGO_URI = true) ∨
        (v = "MONGO_DB_NAME" ∧ falsy c.MONGO_DB_NAME = true) ∨
        (v = "MONGO_COLLECTION_NAME" ∧ falsy c.MONGO_COLLECTION_NAME = true) ∨
        (v = "SQS_QUEUE_URL" ∧ falsy c.SQS_QUEUE_URL = true))) ∧
    (∀ (cfg cfg' : PCConfig) (today : DateW) (db : DB) (nid : Nat)
        (jobs : List (PCEnv × String)),
      pc_process_company cfg today db nid jobs
        = pc_process_company cfg' today db nid jobs) := by
  constructor
  · intro c companies h
    constructor
    · have hne : (enqMissing c).isEmpty = false := by
        cases hm : enqMissing c with
        | nil => exact absurd hm h
        | cons a rest => rfl
      simp only [enqueue_lambda_handler, hne, Bool.false_eq_true, if_false]
    · intro v
      simp only [enqMissing, List.mem_append]
      by_cases h1 : falsy c.MONGO_URI <;> by_cases h2 : falsy c.MONGO_DB_NAME <;>
        by_cases h3 : falsy c.MONGO_COLLECTION_NAME <;>
        by_cases h4 : falsy c.SQS_QUEUE_URL <;>
        simp [h1, h2, h3, h4, or_assoc]
  · intro cfg cfg' today db nid jobs
    induction jobs generalizing db nid with
    | nil => rfl
    | cons j rest ih =>
      simp only [pc_process_company]
      cases hf : (pc_process_record j.1 today db nid j.2).fatal with
      | some e => rfl
      | none => rw [ih]

/-- C9 counterexample: with every worker configuration value missing, the
ProcessCompany invocation does not fail before reading the queue — it
reads, fully processes and acknowledges the message. -/
theorem c9_counterexample :
    (pc_process_company cfgNone ⟨2024, 7, 1⟩ [] 0 [(envAllOk, rawMsg1)]).outcome
      = Except.ok success200 ∧
    dbSize (pc_process_company cfgNone ⟨2024, 7, 1⟩ [] 0
        [(envAllOk, rawMsg1)]).db = 1 := by
  decide

theorem c9_witness :
    (enqueue_lambda_handler enqCfgMissing [[(kBusinessName, JVal.vstr "b")]] =
      (⟨500, dumps [(kError, JVal.vstr ("Missing required environment variables: "
          ++ commaSep.intercalate (enqMissing enqCfgMissing)))]⟩, [])) ∧
    ("MONGO_URI" ∈ enqMissing enqCfgMissing) ∧
    ("MONGO_DB_NAME" ∉ enqMissing enqCfgMissing) ∧
    pc_process_company cfgNone ⟨2024, 7, 1⟩ [] 0 [(envAllOk, rawMsg1)]
      = pc_process_company cfgSome ⟨2024, 7, 1⟩ [] 0 [(envAllOk, rawMsg1)] := by
  have h := c9_config_validation.1 enqCfgMissing [[(kBusinessName, JVal.vstr "b")]]
    (by decide)
  refine ⟨h.1, (h.2 "MONGO_URI").mpr (Or.inl ⟨rfl, rfl⟩), ?_, ?_⟩
  · intro hmem
    rcases (h.2 "MONGO_DB_NAME").mp hmem with ⟨hv, _⟩ | ⟨_, hf⟩ | ⟨hv, _⟩ | ⟨hv, _⟩
    · exact absurd hv (by decide)
    · exact absurd hf (by decide)
    · exact absurd hv (by decide)
    · exact absurd hv (by decide)
  · exact c9_config_validation.2 cfgNone cfgSome ⟨2024, 7, 1⟩ [] 0
      [(envAllOk, rawMsg1)]
